import Mathlib

/-!
Verification development for a Telegram lawyer-intake bot
(`app/handlers.py`, `app/db.py`, `app/admin.py`, `app/sheets.py`).

The bot's conversation flows (Quick question, Booking), its validators,
the lead store (SQLite via SQLAlchemy), the admin filtering/pagination
layer, and the finalize side-effect pipeline are shallowly embedded as
executable Lean definitions.  Handlers are dispatched in the registration
order of the source file; machine-level details that matter for the
claims (Python regex semantics including the `$`-before-trailing-newline
rule, `str.strip`, `str.lower` on the Latin/Cyrillic alphabets the bot
compares against, `split(":")[-1]`) are modelled explicitly.

Timestamps are modelled as natural numbers (seconds); each inbound event
carries the clock value `now` at which it is processed, standing for
`datetime.now(timezone.utc)` read by the `created_at` column default.
-/

/-! ### Python string primitives -/

/-- Python `\s` / `str.strip` whitespace on the ASCII range
(space, tab, newline, carriage return, vertical tab, form feed). -/
def isPySpace (c : Char) : Bool :=
  c = (' ') || c = ('\t') || c = ('\n') || c = ('\r') ||
  c = (Char.ofNat 0x0B) || c = (Char.ofNat 0x0C)

/-- Python `str.lower`, restricted to ASCII Latin and the Cyrillic
letters (including Ukrainian І/Є/Ї/Ґ) that appear in the bot's button
texts; other characters are left unchanged. -/
def pyLower (c : Char) : Char :=
  if ('A') ≤ c ∧ c ≤ ('Z') then Char.ofNat (c.toNat + 32)
  else if 0x400 ≤ c.toNat ∧ c.toNat ≤ 0x40F then Char.ofNat (c.toNat + 0x50)
  else if 0x410 ≤ c.toNat ∧ c.toNat ≤ 0x42F then Char.ofNat (c.toNat + 0x20)
  else if c.toNat = 0x490 then Char.ofNat 0x491
  else c

/-- `str.strip()`: drop whitespace from both ends. -/
def pyStrip (s : String) : String :=
  String.mk (((s.data.dropWhile isPySpace).reverse.dropWhile isPySpace).reverse)

/-- One pass of Python `str.replace(pat, "")`: remove every
(non-overlapping, left-to-right) occurrence of `pat`.  Fuel-driven so the
function is structurally recursive; the initial fuel `cs.length` always
suffices because every step consumes at least one character. -/
def removeSeqGo (pat : List Char) : Nat → List Char → List Char
  | _, [] => []
  | 0, cs => cs
  | Nat.succ n, c :: rest =>
    if pat.length ≠ 0 ∧ (c :: rest).take pat.length = pat then
      removeSeqGo pat n (rest.drop (pat.length - 1))
    else c :: removeSeqGo pat n rest

def removeSeq (pat : List Char) (cs : List Char) : List Char :=
  removeSeqGo pat cs.length cs

/-- `re.sub(r"\s+", " ", s)`: collapse every run of whitespace into a
single space (the flag records whether the previous character was part of
a whitespace run). -/
def collapseWsGo : Bool → List Char → List Char
  | _, [] => []
  | prevWs, c :: rest =>
    if isPySpace c then
      if prevWs then collapseWsGo true rest else (' ') :: collapseWsGo true rest
    else c :: collapseWsGo false rest

/-- The emoji sequences stripped by `norm` in `app/handlers.py`
("🚀", "⚡️", "📞", "📚", "👩‍⚖️", "🏠"), as code-point sequences. -/
def emojiSeqs : List (List Char) :=
  [[Char.ofNat 0x1F680],
   [Char.ofNat 0x26A1, Char.ofNat 0xFE0F],
   [Char.ofNat 0x1F4DE],
   [Char.ofNat 0x1F4DA],
   [Char.ofNat 0x1F469, Char.ofNat 0x200D, Char.ofNat 0x2696, Char.ofNat 0xFE0F],
   [Char.ofNat 0x1F3E0]]

/-- `norm` from `app/handlers.py`: empty input maps to `""`; otherwise the
emoji are replaced by `""`, whitespace runs are collapsed, the result is
stripped and lower-cased. -/
def norm (title : String) : String :=
  if title = ("") then ("")
  else
    let cs := emojiSeqs.foldl (fun acc p => removeSeq p acc) title.data
    let ws := collapseWsGo false cs
    let st := ((ws.dropWhile isPySpace).reverse.dropWhile isPySpace).reverse
    String.mk (st.map pyLower)

/-- Python `call.data.split(":")[-1]`: the segment after the last `:`
(the whole string when there is no `:`). -/
def lastSeg (s : String) : String :=
  String.mk ((s.data.reverse.takeWhile (fun c => c ≠ (':'))).reverse)

/-- `str.startswith(pat)` (used for the aiogram `F.data.startswith`
filters), computed on the underlying character lists. -/
def dataStartsWith (s pat : String) : Bool :=
  s.data.take pat.data.length == pat.data

/-! ### Validators (`RX_PHONE`, `RX_TG`, `RX_EMAIL` in `app/handlers.py`) -/

/-- The character class `[\d\-\s]` of `RX_PHONE` (ASCII digits; Python's
Unicode-digit extension of `\d` is not modelled). -/
def phoneBody (c : Char) : Bool := c.isDigit || c = ('-') || isPySpace c

/-- `\d[\d\-\s]{6,}` anchored at both ends. -/
def phoneCore : List Char → Bool
  | [] => false
  | d :: rest => d.isDigit && decide (6 ≤ rest.length) && rest.all phoneBody

/-- `^\+?\d[\d\-\s]{6,}$` without the `$`-newline rule: an optional
leading `+` is consumed when present (a second `+` cannot satisfy `\d`,
so no backtracking case remains). -/
def rxPhoneMatch (cs : List Char) : Bool :=
  if cs.head? = some ('+') then phoneCore cs.tail else phoneCore cs

/-- The class `[A-Za-z0-9_]` of `RX_TG`. -/
def isWordChar (c : Char) : Bool :=
  (('A') ≤ c && c ≤ ('Z')) || (('a') ≤ c && c ≤ ('z')) ||
  (('0') ≤ c && c ≤ ('9')) || c = ('_')

/-- `^@[A-Za-z0-9_]{5,}$` without the `$`-newline rule. -/
def tgCore (cs : List Char) : Bool :=
  if cs.head? = some ('@') then decide (5 ≤ cs.tail.length) && cs.tail.all isWordChar
  else false

/-- The class `[^@\s]` of `RX_EMAIL`. -/
def emailChar (c : Char) : Bool := c ≠ ('@') && !(isPySpace c)

/-- `^[^@\s]+@[^@\s]+\.[^@\s]+$` without the `$`-newline rule: a
non-empty `@`-free, space-free local part, exactly one `@`, and a
non-empty `@`-free, space-free tail containing a `.` that has at least
one character on each side. -/
def emailCore (cs : List Char) : Bool :=
  let locPart := cs.takeWhile (fun c => c ≠ ('@'))
  let rest := cs.drop (locPart.length + 1)
  decide (locPart.length < cs.length) &&
  decide (0 < locPart.length) && locPart.all emailChar &&
  decide (0 < rest.length) && rest.all emailChar &&
  (rest.drop 1).dropLast.contains ('.')

/-- Python `re.match` semantics of a pattern ending in `$`: the whole
string matches, or everything but a single trailing newline matches. -/
def dollarOpt (core : List Char → Bool) (cs : List Char) : Bool :=
  core cs || (cs.getLast? == some ('\n') && core cs.dropLast)

/-- `valid_contact` from `app/handlers.py`. -/
def valid_contact (s : String) : Bool :=
  dollarOpt rxPhoneMatch s.data || dollarOpt tgCore s.data

/-- `valid_email` from `app/handlers.py`. -/
def valid_email (s : String) : Bool :=
  dollarOpt emailCore s.data

/-! ### Data model (`app/db.py`) -/

/-- A row of the `leads` table.  `created_at` is a UTC timestamp in
seconds; the single modelled end user has `user_id = 1`. -/
structure Lead where
  id : Nat
  user_id : Nat
  source : String
  category : Option String
  brief : Option String
  urgency : Option String
  consult_format : Option String
  duration : Option String
  slot_iso : Option String
  name : Option String
  contact : Option String
  email : Option String
  consent : Bool
  status : String
  created_at : Nat
deriving DecidableEq, Repr

/-- A row of the `documents` table (an attachment).  `lead_id` is
`NOT NULL` with `ON DELETE CASCADE` in the source schema. -/
structure Document where
  id : Nat
  lead_id : Nat
  file_id : String
  kind : Option String
  caption : Option String
deriving DecidableEq, Repr

/-- The durable store: the `leads` and `documents` tables plus the
autoincrement counters. -/
structure Store where
  leads : List Lead := []
  documents : List Document := []
  nextLeadId : Nat := 1
  nextDocId : Nat := 1
deriving DecidableEq, Repr

/-- The aiogram FSM data dict accumulated by a flow (a missing key is
`none`). -/
structure Draft where
  category : Option String := none
  brief : Option String := none
  urgency : Option String := none
  duration : Option String := none
  consult_format : Option String := none
  name : Option String := none
  contact : Option String := none
  email : Option String := none
  pdfs : Option (List String) := none
deriving DecidableEq, Repr

/-- The FSM state (`Quick.*` and `Booking.*` of `app/handlers.py`;
`idle` is aiogram's `state = None`). -/
inductive FState where
  | idle
  | qCategory | qBrief | qUrgency | qOffer | qName | qContact | qEmail
  | bFmt | bDur | bName | bContact | bEmail
deriving DecidableEq, Repr

/-- Per-user session: FSM state plus data.  `state.clear()` resets both. -/
structure Sess where
  fstate : FState := FState.idle
  draft : Draft := {}
deriving DecidableEq, Repr

/-- Whole modelled system state for one end user. -/
structure World where
  sess : Sess := {}
  store : Store := {}
deriving DecidableEq, Repr

def initWorld : World := {}

/-- Observable reaction of a handler (which prompt or reply it sends). -/
inductive Out where
  | blog | start | menu | about
  | askCategory | askBrief | askUrgency | askOffer | askName
  | askContact | askEmail | askFormat | askDuration
  | repromptBrief | badContact | badEmail
  | finalizedQuick | finalizedBooking
  | firstTouch | noop
deriving DecidableEq, Repr

/-- Inbound events: a plain text message, an inline-button callback, or a
structured contact share; each carries the processing-time clock. -/
inductive Ev where
  | msg (text : String) (now : Nat)
  | cb (data : String) (now : Nat)
  | share (phone : String) (now : Nat)
deriving DecidableEq, Repr

def evTime : Ev → Nat
  | Ev.msg _ n => n
  | Ev.cb _ n => n
  | Ev.share _ n => n

/-! ### Lead creation (`create_lead`, `_finalize_quick`, `_finalize_booking`) -/

/-- The maximum number of stored quick-flow PDFs (`MAX_PDFS = 2`). -/
def MAX_PDFS : Nat := 2

/-- The `Lead` constructed by `_finalize_quick` from the draft dict:
`source="quick"`, `consent=True`, `status` defaulting to `"new"`,
`created_at` defaulting to the current time; `consult_format` and
`slot_iso` are not passed and stay `NULL`. -/
def mkQuickLead (d : Draft) (id : Nat) (now : Nat) : Lead :=
  { id := id, user_id := 1, source := ("quick"), category := d.category,
    brief := d.brief, urgency := d.urgency, consult_format := none,
    duration := d.duration, slot_iso := none, name := d.name,
    contact := d.contact, email := d.email, consent := true,
    status := ("new"), created_at := now }

/-- The `Lead` constructed by `_finalize_booking`: `source="booking"`,
the email is passed directly (not through the data dict). -/
def mkBookingLead (d : Draft) (em : Option String) (id : Nat) (now : Nat) : Lead :=
  { id := id, user_id := 1, source := ("booking"), category := none,
    brief := none, urgency := none, consult_format := d.consult_format,
    duration := d.duration, slot_iso := none, name := d.name,
    contact := d.contact, email := em, consent := true,
    status := ("new"), created_at := now }

/-- The `Document` rows `_finalize_quick` adds for the collected PDF file
ids (`kind="document"`, `caption="quick-pdf"`), with consecutive
autoincrement ids. -/
def docsFrom (leadId : Nat) : Nat → List String → List Document
  | _, [] => []
  | nextId, fid :: rest =>
    { id := nextId, lead_id := leadId, file_id := fid,
      kind := some ("document"), caption := some ("quick-pdf") } ::
    docsFrom leadId (nextId + 1) rest

/-- The single transaction of `_finalize_quick`: insert the lead and its
(at most `MAX_PDFS`) documents, then commit. -/
def finalizeQuickStore (st : Store) (d : Draft) (now : Nat) : Store × Lead :=
  let lead := mkQuickLead d st.nextLeadId now
  let pdfs := (d.pdfs.getD []).take MAX_PDFS
  ({ leads := st.leads ++ [lead],
     documents := st.documents ++ docsFrom lead.id st.nextDocId pdfs,
     nextLeadId := st.nextLeadId + 1,
     nextDocId := st.nextDocId + pdfs.length }, lead)

/-- The single transaction of `_finalize_booking` (no documents). -/
def finalizeBookingStore (st : Store) (d : Draft) (em : Option String) (now : Nat) :
    Store × Lead :=
  let lead := mkBookingLead d em st.nextLeadId now
  ({ leads := st.leads ++ [lead], documents := st.documents,
     nextLeadId := st.nextLeadId + 1, nextDocId := st.nextDocId }, lead)

/-! ### Admin mutations (`admin_set_status`, `admin_delete_lead` in `app/admin.py`) -/

/-- `admin_set_status`: load the lead by id (`scalar_one_or_none`); when
found assign the new status unconditionally and commit (`true`), else
answer not-found and change nothing (`false`). -/
def admin_set_status (st : Store) (id : Nat) (ns : String) : Store × Bool :=
  if st.leads.any (fun l => l.id == id) then
    ({ st with leads := st.leads.map (fun l => if l.id == id then { l with status := ns } else l) },
     true)
  else (st, false)

/-- `admin_delete_lead`: load the lead by id; when found
`session.delete(lead)` removes the lead row and — via the
`cascade="all, delete-orphan"` relationship and the `ON DELETE CASCADE`
foreign key of `documents.lead_id` — every document row referencing it,
in one commit (`true`); else answer not-found and change nothing
(`false`). -/
def admin_delete_lead (st : Store) (id : Nat) : Store × Bool :=
  if st.leads.any (fun l => l.id == id) then
    ({ st with
       leads := st.leads.filter (fun l => !(l.id == id)),
       documents := st.documents.filter (fun doc => !(doc.lead_id == id)) },
     true)
  else (st, false)

/-! ### Message dispatch (`app/handlers.py`, registration order) -/

/-- `BTN_SET`: the normalized main-menu button titles. -/
def BTN_SET : List String :=
  [("швидке питання"), ("записатися на консультацію"), ("статті та гіди"),
   ("про юриста / контакти"), ("меню")]

/-- `route_main_button`: when the normalized text is a main-menu title,
`state.clear()` and enter the corresponding section (the flow entries set
their state on the freshly cleared session); otherwise report no match. -/
def route_main_button (t : String) : Option (Sess × Out) :=
  let n := norm t
  if n = ("швидке питання") then
    some ({ fstate := FState.qCategory, draft := {} }, Out.askCategory)
  else if n = ("записатися на консультацію") then
    some ({ fstate := FState.bFmt, draft := {} }, Out.askFormat)
  else if n = ("статті та гіди") then some ({}, Out.blog)
  else if n = ("про юриста / контакти") then some ({}, Out.about)
  else if n = ("меню") then some ({}, Out.menu)
  else none

/-- `_finalize_quick` reached from the email step: `update_data(email=…)`,
create the lead and documents, commit, reply, `state.clear()`. -/
def finalizeQuickWorld (w : World) (em : Option String) (now : Nat) : World × Out :=
  ({ sess := {},
     store := (finalizeQuickStore w.store { w.sess.draft with email := em } now).1 },
   Out.finalizedQuick)

/-- `_finalize_booking` reached from the email step. -/
def finalizeBookingWorld (w : World) (em : Option String) (now : Nat) : World × Out :=
  ({ sess := {},
     store := (finalizeBookingStore w.store w.sess.draft em now).1 },
   Out.finalizedBooking)

/-- The effect a text-message handler has on the world: a pure session
update, no change at all, or one of the two finalize transactions. -/
inductive MsgAct where
  | sess (s : Sess) (o : Out)
  | keep (o : Out)
  | finQuick (em : Option String)
  | finBooking (em : Option String)
deriving DecidableEq, Repr

/-- The shared email-step body of `quick_email` / `booking_email` as an
action: re-prompt unless the stripped text is `"-"`, empty, or a valid
email; `"-"` (and the dead `"—"` alternative) map to no email. -/
def emailAct (t : String) (fin : Option String → MsgAct) : MsgAct :=
  let e := pyStrip t
  if e ≠ ("-") ∧ e ≠ ("") ∧ valid_email e = false then MsgAct.keep Out.badEmail
  else fin (if e = ("-") ∨ e = ("—") then none else some e)

/-- Dispatch of a plain text message through the handlers of
`app/handlers.py` in registration order (commands and the document flow
are outside the modelled event alphabet).  Handlers registered without a
state filter (the blog/start/menu/about handlers and the two flow
entries) match in any FSM state and therefore shadow later
state-specific handlers; in particular the flow entries only
`set_state`, they do not clear the accumulated data. -/
def stepMsgAct (s : Sess) (t : String) : MsgAct :=
  let n := norm t
  if n = ("статті та гіди") then MsgAct.keep Out.blog
  else if n = ("розпочати") then MsgAct.sess {} Out.start
  else if n = ("меню") then MsgAct.sess {} Out.menu
  else if n = ("про юриста / контакти") then MsgAct.sess {} Out.about
  else if n = ("швидке питання") then
    MsgAct.sess { s with fstate := FState.qCategory } Out.askCategory
  else if s.fstate = FState.qBrief ∧ t = ("⬅️ Назад") then
    MsgAct.sess { s with fstate := FState.qCategory } Out.askCategory
  else if s.fstate = FState.qBrief ∧ t.length ≤ 500 then
    match route_main_button t with
    | some r => MsgAct.sess r.1 r.2
    | none =>
      MsgAct.sess { fstate := FState.qUrgency,
                    draft := { s.draft with brief := some (pyStrip t) } } Out.askUrgency
  else if s.fstate = FState.qBrief then
    MsgAct.keep (if BTN_SET.contains n then Out.noop else Out.repromptBrief)
  else if s.fstate = FState.qName ∧ t = ("⬅️ Назад") then
    MsgAct.sess { s with fstate := FState.qOffer } Out.askOffer
  else if s.fstate = FState.qName then
    match route_main_button t with
    | some r => MsgAct.sess r.1 r.2
    | none =>
      MsgAct.sess { fstate := FState.qContact,
                    draft := { s.draft with name := some (pyStrip t) } } Out.askContact
  else if s.fstate = FState.qContact ∧ t = ("⬅️ Назад") then
    MsgAct.sess { s with fstate := FState.qName } Out.askName
  else if s.fstate = FState.qContact ∧ valid_contact t = true then
    MsgAct.sess { fstate := FState.qEmail,
                  draft := { s.draft with contact := some (pyStrip t) } } Out.askEmail
  else if s.fstate = FState.qContact then
    match route_main_button t with
    | some r => MsgAct.sess r.1 r.2
    | none => MsgAct.keep Out.badContact
  else if s.fstate = FState.qEmail ∧ t = ("⬅️ Назад") then
    MsgAct.sess { s with fstate := FState.qContact } Out.askContact
  else if s.fstate = FState.qEmail ∧ t = ("⏭️ Пропустити") then
    MsgAct.finQuick none
  else if s.fstate = FState.qEmail then
    match route_main_button t with
    | some r => MsgAct.sess r.1 r.2
    | none => emailAct t MsgAct.finQuick
  else if n = ("записатися на консультацію") then
    MsgAct.sess { s with fstate := FState.bFmt } Out.askFormat
  else if s.fstate = FState.bName ∧ t = ("⬅️ Назад") then
    MsgAct.sess { s with fstate := FState.bDur } Out.askDuration
  else if s.fstate = FState.bName then
    match route_main_button t with
    | some r => MsgAct.sess r.1 r.2
    | none =>
      MsgAct.sess { fstate := FState.bContact,
                    draft := { s.draft with name := some (pyStrip t) } } Out.askContact
  else if s.fstate = FState.bContact ∧ t = ("⬅️ Назад") then
    MsgAct.sess { s with fstate := FState.bName } Out.askName
  else if s.fstate = FState.bContact ∧ valid_contact t = true then
    MsgAct.sess { fstate := FState.bEmail,
                  draft := { s.draft with contact := some (pyStrip t) } } Out.askEmail
  else if s.fstate = FState.bContact then
    match route_main_button t with
    | some r => MsgAct.sess r.1 r.2
    | none => MsgAct.keep Out.badContact
  else if s.fstate = FState.bEmail ∧ t = ("⏭️ Пропустити") then
    MsgAct.finBooking none
  else if s.fstate = FState.bEmail ∧ t = ("⬅️ Назад") then
    MsgAct.sess { s with fstate := FState.bContact } Out.askContact
  else if s.fstate = FState.bEmail then
    match route_main_button t with
    | some r => MsgAct.sess r.1 r.2
    | none => emailAct t MsgAct.finBooking
  else if s.fstate = FState.idle ∧ dataStartsWith t ("/") = false then
    MsgAct.keep Out.firstTouch
  else MsgAct.keep Out.noop

/-- Interpret a text-message action on the world. -/
def applyMsgAct (w : World) (now : Nat) : MsgAct → World × Out
  | MsgAct.sess s o => ({ w with sess := s }, o)
  | MsgAct.keep o => (w, o)
  | MsgAct.finQuick em => finalizeQuickWorld w em now
  | MsgAct.finBooking em => finalizeBookingWorld w em now

def stepMsg (w : World) (t : String) (now : Nat) : World × Out :=
  applyMsgAct w now (stepMsgAct w.sess t)

/-- Dispatch of an inline-keyboard callback (registration order; a
callback never touches the durable store). -/
def stepCbSess (s : Sess) (data : String) : Sess × Out :=
  if s.fstate = FState.qCategory ∧ data = ("common:back") then ({}, Out.menu)
  else if s.fstate = FState.qCategory ∧ dataStartsWith data ("quick:cat:") = true then
    ({ fstate := FState.qBrief,
       draft := { s.draft with category := some (lastSeg data), pdfs := some [] } },
     Out.askBrief)
  else if s.fstate = FState.qUrgency ∧ data = ("common:back") then
    ({ s with fstate := FState.qBrief }, Out.askBrief)
  else if s.fstate = FState.qUrgency ∧ dataStartsWith data ("quick:urg:") = true then
    ({ fstate := FState.qOffer,
       draft := { s.draft with urgency := some (lastSeg data) } }, Out.askOffer)
  else if s.fstate = FState.qOffer ∧ data = ("common:back") then
    ({ s with fstate := FState.qUrgency }, Out.askUrgency)
  else if s.fstate = FState.qOffer ∧ dataStartsWith data ("offer:") = true then
    ({ fstate := FState.qName,
       draft := if lastSeg data = ("30") ∨ lastSeg data = ("60") then
           { s.draft with duration := some (lastSeg data) }
         else s.draft },
     Out.askName)
  else if s.fstate = FState.bFmt ∧ data = ("common:back") then ({}, Out.menu)
  else if s.fstate = FState.bFmt ∧ dataStartsWith data ("book:fmt:") = true then
    ({ fstate := FState.bDur,
       draft := { s.draft with consult_format := some (lastSeg data) } }, Out.askDuration)
  else if s.fstate = FState.bDur ∧ data = ("common:back") then
    ({ s with fstate := FState.bFmt }, Out.askFormat)
  else if s.fstate = FState.bDur ∧ dataStartsWith data ("book:dur:") = true then
    ({ fstate := FState.bName,
       draft := { s.draft with duration := some (lastSeg data) } }, Out.askName)
  else (s, Out.noop)

def stepCb (w : World) (data : String) (_now : Nat) : World × Out :=
  ({ w with sess := (stepCbSess w.sess data).1 }, (stepCbSess w.sess data).2)

/-- Dispatch of a structured contact share (`F.content_type == CONTACT`):
the shared phone number is stored unchanged; no store access. -/
def stepShareSess (s : Sess) (phone : String) : Sess × Out :=
  if s.fstate = FState.qContact then
    ({ fstate := FState.qEmail, draft := { s.draft with contact := some phone } },
     Out.askEmail)
  else if s.fstate = FState.bContact then
    ({ fstate := FState.bEmail, draft := { s.draft with contact := some phone } },
     Out.askEmail)
  else (s, Out.noop)

def stepShare (w : World) (phone : String) (_now : Nat) : World × Out :=
  ({ w with sess := (stepShareSess w.sess phone).1 }, (stepShareSess w.sess phone).2)

def stepEv (w : World) : Ev → World × Out
  | Ev.msg t now => stepMsg w t now
  | Ev.cb d now => stepCb w d now
  | Ev.share p now => stepShare w p now

/-- Process a list of inbound events in order. -/
def runEvents (w : World) (evs : List Ev) : World :=
  evs.foldl (fun w e => (stepEv w e).1) w

/-- The `created_at` column of the leads table, in insertion order. -/
def leadTimes (st : Store) : List Nat := st.leads.map (fun l => l.created_at)

/-- Executable "non-decreasing" check on a list of timestamps. -/
def nondecr : List Nat → Bool
  | [] => true
  | [_] => true
  | a :: b :: rest => a ≤ b && nondecr (b :: rest)

/-! ### Admin filters and pagination (`app/admin.py`) -/

/-- A staff user's `_FILTERS` entry; the `defaultdict` default is
`status="any"`, `source="any"`, `period="30d"`. -/
structure FilterSet where
  status : String := ("any")
  source : String := ("any")
  period : String := ("30d")
deriving DecidableEq, Repr

/-- `period_to_days`: `"7d"/"30d"/"90d"` map to day counts, anything else
(`"all"`) to `None`. -/
def period_to_days (p : String) : Option Nat :=
  if p = ("7d") then some 7
  else if p = ("30d") then some 30
  else if p = ("90d") then some 90
  else none

/-- The WHERE clause assembled by `fetch_page`: status forced to `"new"`
in the `new` scope and otherwise taken from the filter unless `"any"`;
source unless `"any"`; `created_at >= now - timedelta(days=days)` unless
the period maps to `None`.  `now` is an `Int` so the cutoff may be
negative. -/
def lead_matches (scope : String) (f : FilterSet) (now : Int) (l : Lead) : Bool :=
  (if scope = ("new") then l.status == ("new")
   else if f.status ≠ ("any") then l.status == f.status
   else true) &&
  (if f.source ≠ ("any") then l.source == f.source else true) &&
  (match period_to_days f.period with
   | some d => decide (now - (d : Int) * 86400 ≤ (l.created_at : Int))
   | none => true)

/-- `ORDER BY created_at DESC`. -/
def createdDesc (a b : Lead) : Prop := b.created_at ≤ a.created_at

instance : DecidableRel createdDesc := fun a b => Nat.decLe b.created_at a.created_at

instance : IsTotal Lead createdDesc :=
  ⟨fun a b => Nat.le_total b.created_at a.created_at⟩

instance : IsTrans Lead createdDesc :=
  ⟨fun _ _ _ h1 h2 => Nat.le_trans h2 h1⟩

/-- `fetch_page`: `SELECT … WHERE <filters> ORDER BY created_at DESC
LIMIT 10 OFFSET page*10` (SQLAlchemy composes the generative `.where`
calls into the WHERE clause regardless of call order, so filtering
happens before the offset/limit window). -/
def fetch_page (db : List Lead) (scope : String) (page : Nat) (f : FilterSet) (now : Int) :
    List Lead :=
  (((db.filter (lead_matches scope f now)).insertionSort createdDesc).drop (page * 10)).take 10

/-- `kb_list` offers the `Вперед ➡️` (next page) button exactly when
`len(items) == 10`. -/
def kb_list_has_next (items : List Lead) : Bool := items.length == 10

/-! ### Finalize side effects (`append_lead_safe`, `notify_admins_with_actions`) -/

/-- Outcome of one external call (the Sheets API or a Telegram send). -/
inductive FxResult where
  | ok
  | err (msg : String)
deriving DecidableEq, Repr

/-- The awaited operations of `_finalize_quick`, in coroutine order:
the DB commit, the mirror call (`asyncio.to_thread(append_lead_safe, …)`,
awaited), the notify call (awaited), the PDF forwards when present, the
success reply to the user, `state.clear()`. -/
inductive FinEv where
  | commitLead | mirrorStart | mirrorDone | notifyStart | notifyDone
  | pdfForward | replySent | stateCleared
deriving DecidableEq, Repr

/-- Index of the first occurrence of an event in a trace. -/
def posOf (e : FinEv) : List FinEv → Nat
  | [] => 0
  | x :: xs => if x = e then 0 else posOf e xs + 1

/-- `append_lead_safe` from `app/sheets.py`: the whole body is wrapped in
`try/except`; an error is written to the log and swallowed, nothing is
raised and nothing is retried. -/
def append_lead_safe : FxResult → List String
  | FxResult.ok => []
  | FxResult.err m => [("Sheets append_lead_safe error: ") ++ m]

/-- `notify_admins_with_actions`: each `send_message` sits in its own
`try/except`; a failure is logged with `logging.warning` and dropped. -/
def notify_admins_log : FxResult → List String
  | FxResult.ok => []
  | FxResult.err m => [("Notify admin failed: ") ++ m]

/-- Result of one `_finalize_quick` run including its side effects. -/
structure FinalizeRun where
  store : Store
  reply : String
  logged : List String
  mirrorCalls : Nat
  notifyCalls : Nat
  events : List FinEv
deriving DecidableEq, Repr

/-- `_finalize_quick` with the outcomes of the two external collaborators
made explicit: the lead (and its documents) are committed first; the
mirror and notify calls are then each invoked exactly once, their errors
only logged; the user reply does not depend on either outcome. -/
def finalize_quick_effects (st : Store) (d : Draft) (em : Option String) (now : Nat)
    (mirrorFx notifyFx : FxResult) : FinalizeRun :=
  let d2 := { d with email := em }
  let st2 := (finalizeQuickStore st d2 now).1
  { store := st2,
    reply := ("Дякуємо! Передали юристу. Очікуйте на відповідь у приватних повідомленнях."),
    logged := append_lead_safe mirrorFx ++ notify_admins_log notifyFx,
    mirrorCalls := 1,
    notifyCalls := 1,
    events := [FinEv.commitLead, FinEv.mirrorStart, FinEv.mirrorDone,
               FinEv.notifyStart, FinEv.notifyDone] ++
      (if (d2.pdfs.getD []).length = 0 then [] else [FinEv.pdfForward]) ++
      [FinEv.replySent, FinEv.stateCleared] }

/-! ### Spec-side predicates for the contact validator (claim C3) -/

/-- Modelled from the spec: "phone-like (optional leading `+`, at least 7
digits possibly separated by spaces or hyphens)". -/
def spec_phone_like (s : String) : Bool :=
  let cs := if s.data.take 1 = [('+')] then s.data.drop 1 else s.data
  decide (cs ≠ []) &&
  cs.all (fun c => c.isDigit || c = (' ') || c = ('-')) &&
  decide (7 ≤ (cs.filter Char.isDigit).length)

/-- Modelled from the spec: "handle-like (`@` followed by at least 5
alphanumeric/underscore characters)". -/
def spec_handle_like (s : String) : Bool :=
  match s.data with
  | ('@') :: rest => decide (5 ≤ rest.length) && rest.all isWordChar
  | _ => false

/-- Amended shape of the accepted phone strings: an optional leading `+`,
then one digit, then at least six characters each of which is a digit, a
hyphen or (any) whitespace. -/
def PhoneLikeA (s : String) : Prop :=
  ∃ d rest, (s.data = d :: rest ∨ s.data = ('+') :: d :: rest) ∧
    d.isDigit = true ∧ 6 ≤ rest.length ∧ ∀ c ∈ rest, phoneBody c = true

/-- Amended shape of the accepted handle strings: `@`, then at least five
word characters, optionally followed by one trailing newline (which the
regex `$` tolerates). -/
def HandleLikeA (s : String) : Prop :=
  ∃ rest tail, s.data = ('@') :: rest ++ tail ∧
    (tail = [] ∨ tail = [('\n')]) ∧ 5 ≤ rest.length ∧ ∀ c ∈ rest, isWordChar c = true

/-! ### Concrete scenarios used by the claims -/

/-- The C1 quick-flow session: criminal category, brief
"Contract dispute", urgency today, consult offer skipped, name Olena,
contact +380991234567, email skipped; event clocks 1..8. -/
def c1Events : List Ev :=
  [Ev.msg ("Швидке питання") 1,
   Ev.cb ("quick:cat:criminal") 2,
   Ev.msg ("Contract dispute") 3,
   Ev.cb ("quick:urg:today") 4,
   Ev.cb ("offer:skip") 5,
   Ev.msg ("Olena") 6,
   Ev.msg ("+380991234567") 7,
   Ev.msg ("⏭️ Пропустити") 8]

/-- The lead the C1 scenario must produce. -/
def c1Lead : Lead :=
  { id := 1, user_id := 1, source := ("quick"), category := some ("criminal"),
    brief := some ("Contract dispute"), urgency := some ("today"),
    consult_format := none, duration := none, slot_iso := none,
    name := some ("Olena"), contact := some ("+380991234567"), email := none,
    consent := true, status := ("new"), created_at := 8 }

/-- The C6 trace: a Booking draft is built up to `duration = "30"`, then
the quick flow is started over it (the quick entry handler only
`set_state`s) and completed with the consult offer skipped. -/
def c6Events : List Ev :=
  [Ev.msg ("Записатися на консультацію") 1,
   Ev.cb ("book:fmt:phone") 2,
   Ev.cb ("book:dur:30") 3,
   Ev.msg ("Швидке питання") 4,
   Ev.cb ("quick:cat:criminal") 5,
   Ev.msg ("Contract dispute") 6,
   Ev.cb ("quick:urg:today") 7,
   Ev.cb ("offer:skip") 8,
   Ev.msg ("Olena") 9,
   Ev.msg ("+380991234567") 10,
   Ev.msg ("⏭️ Пропустити") 11]

/-- The lead the C6 trace produces: a quick lead carrying the `duration`
collected by the abandoned Booking draft. -/
def c6Lead : Lead :=
  { id := 1, user_id := 1, source := ("quick"), category := some ("criminal"),
    brief := some ("Contract dispute"), urgency := some ("today"),
    consult_format := none, duration := some ("30"), slot_iso := none,
    name := some ("Olena"), contact := some ("+380991234567"), email := none,
    consent := true, status := ("new"), created_at := 11 }

/-- A world sitting at the quick-flow contact step (for C3). -/
def wContact : World :=
  { sess := { fstate := FState.qContact,
              draft := { category := some ("criminal"), brief := some ("b"),
                         urgency := some ("today"), name := some ("Olena"),
                         pdfs := some [] } },
    store := {} }

/-- A world sitting at the quick-flow email step (for C9). -/
def wEmail : World :=
  { sess := { fstate := FState.qEmail,
              draft := { category := some ("criminal"), brief := some ("b"),
                         urgency := some ("today"), name := some ("Olena"),
                         contact := some ("+380991234567"), pdfs := some [] } },
    store := {} }

/-- A world sitting at the quick-flow brief step with collected data
(for C6's clearing case). -/
def wBrief : World :=
  { sess := { fstate := FState.qBrief,
              draft := { category := some ("criminal"), pdfs := some [] } },
    store := {} }

/-- A helper building a minimal `new`/`quick` lead with the given id and
creation time. -/
def simpleLead (id : Nat) (created : Nat) : Lead :=
  { id := id, user_id := 1, source := ("quick"), category := none,
    brief := none, urgency := none, consult_format := none, duration := none,
    slot_iso := none, name := none, contact := none, email := none,
    consent := true, status := ("new"), created_at := created }

/-- Fifteen new leads, creation times 1..15 (for the C5 scenario). -/
def db15 : List Lead :=
  (List.range 15).map (fun i => simpleLead (i + 1) (i + 1))

/-- Clock used in the C5 scenario (within 30 days of all of `db15`). -/
def now15 : Int := 1000

/-- Two new leads for C10: a `booking` lead inside the window and a
`quick` lead far older than every window. -/
def dbC10 : List Lead :=
  [{ simpleLead 1 9000000 with source := ("booking") }, simpleLead 2 3]

/-- A filter set selecting source `quick` over the last 7 days. -/
def fQuick7d : FilterSet :=
  { status := ("any"), source := ("quick"), period := ("7d") }

/-- Clock for the C10 scenario: lead 1 is recent but has the wrong
source, lead 2 has the right source but is far outside the 7-day
window. -/
def nowC10 : Int := 9000100

/-- A store with one lead owning two attachments and a second lead owning
one (C2 witness). -/
def c2Store : Store :=
  { leads := [simpleLead 1 10, simpleLead 2 20],
    documents := [{ id := 1, lead_id := 1, file_id := ("f1"), kind := none, caption := none },
                  { id := 2, lead_id := 1, file_id := ("f2"), kind := none, caption := none },
                  { id := 3, lead_id := 2, file_id := ("f3"), kind := none, caption := none }],
    nextLeadId := 3, nextDocId := 4 }

/-! ## Helper lemmas -/

theorem nondecr_cons_zero (l : List Nat) (h : nondecr l = true) : nondecr (0 :: l) = true := by
  cases l with
  | nil => rfl
  | cons a rest => simp only [nondecr, Bool.and_eq_true, decide_eq_true_eq]
                   exact ⟨Nat.zero_le a, h⟩

theorem nondecr_concat (l : List Nat) (x : Nat) (h : nondecr l = true)
    (hx : ∀ y ∈ l, y ≤ x) : nondecr (l ++ [x]) = true := by
  induction l with
  | nil => rfl
  | cons a rest ih =>
    cases rest with
    | nil =>
      simp only [List.cons_append, List.nil_append, nondecr, Bool.and_eq_true, decide_eq_true_eq]
      exact ⟨hx a (List.mem_singleton.mpr rfl), trivial⟩
    | cons b rest2 =>
      simp only [nondecr, Bool.and_eq_true] at h
      have hrec := ih h.2 (fun y hy => hx y (List.mem_cons_of_mem a hy))
      simp only [List.cons_append, nondecr, Bool.and_eq_true] at hrec ⊢
      exact ⟨h.1, hrec⟩

theorem stepMsg_leads (w : World) (t : String) (now : Nat) :
    (stepMsg w t now).1.store.leads = w.store.leads ∨
    ∃ l, (stepMsg w t now).1.store.leads = w.store.leads ++ [l] ∧ l.created_at = now := by
  unfold stepMsg
  cases stepMsgAct w.sess t with
  | sess s o => left; rfl
  | keep o => left; rfl
  | finQuick em => right; exact ⟨_, rfl, rfl⟩
  | finBooking em => right; exact ⟨_, rfl, rfl⟩

theorem stepEv_leads (w : World) (e : Ev) :
    (stepEv w e).1.store.leads = w.store.leads ∨
    ∃ l, (stepEv w e).1.store.leads = w.store.leads ++ [l] ∧ l.created_at = evTime e := by
  cases e with
  | msg t now => exact stepMsg_leads w t now
  | cb d now => left; rfl
  | share p now => left; rfl

theorem runEvents_nondecr (evs : List Ev) : ∀ (w : World) (t : Nat),
    nondecr (leadTimes w.store) = true →
    (∀ y ∈ leadTimes w.store, y ≤ t) →
    nondecr (t :: evs.map evTime) = true →
    nondecr (leadTimes (runEvents w evs).store) = true := by
  induction evs with
  | nil => intro w t h1 _ _; exact h1
  | cons e rest ih =>
    intro w t h1 h2 h3
    have h3' : (decide (t ≤ evTime e) && nondecr (evTime e :: rest.map evTime)) = true := h3
    rw [Bool.and_eq_true, decide_eq_true_eq] at h3'
    obtain ⟨hte, h3rest⟩ := h3'
    have hrun : runEvents w (e :: rest) = runEvents (stepEv w e).1 rest := rfl
    rw [hrun]
    rcases stepEv_leads w e with heq | ⟨l, heq, hl⟩
    · apply ih (stepEv w e).1 (evTime e)
      · show nondecr ((stepEv w e).1.store.leads.map (fun l => l.created_at)) = true
        rw [heq]; exact h1
      · show ∀ y ∈ (stepEv w e).1.store.leads.map (fun l => l.created_at), y ≤ evTime e
        rw [heq]
        exact fun y hy => Nat.le_trans (h2 y hy) hte
      · exact h3rest
    · apply ih (stepEv w e).1 (evTime e)
      · show nondecr ((stepEv w e).1.store.leads.map (fun l => l.created_at)) = true
        rw [heq, List.map_append]
        apply nondecr_concat
        · exact h1
        · intro y hy
          simp only [List.map_cons, List.map_nil, hl]
          exact Nat.le_trans (h2 y hy) hte
      · show ∀ y ∈ (stepEv w e).1.store.leads.map (fun l => l.created_at), y ≤ evTime e
        rw [heq, List.map_append]
        intro y hy
        rcases List.mem_append.mp hy with hy1 | hy1
        · exact Nat.le_trans (h2 y hy1) hte
        · simp only [List.map_cons, List.map_nil, List.mem_singleton, hl] at hy1
          exact Nat.le_of_eq hy1
      · exact h3rest

/-- **C1**: the completed quick flow (criminal category, brief
"Contract dispute", urgency today, consult offer skipped, name Olena,
contact +380991234567, email skipped) finalizes exactly one Lead with
source `quick`, the collected draft values, `email = NULL` and status
`new`; and over any modelled event sequence whose processing clocks are
non-decreasing, the `created_at` column of the leads table is
non-decreasing in insertion order. -/
theorem c1_quick_finalize_correct :
    (runEvents initWorld c1Events).store.leads = [c1Lead] ∧
    (∀ evs : List Ev, nondecr (evs.map evTime) = true →
      nondecr (leadTimes (runEvents initWorld evs).store) = true) := by
  constructor
  · decide
  · intro evs h
    apply runEvents_nondecr evs initWorld 0
    · rfl
    · intro y hy; cases hy
    · exact nondecr_cons_zero _ h

/-- Witness for C1 at the concrete scenario trace. -/
theorem c1_quick_finalize_correct_witness :
    nondecr (leadTimes (runEvents initWorld c1Events).store) = true :=
  c1_quick_finalize_correct.2 c1Events (by decide)

theorem countP_bnot {α : Type} (p : α → Bool) (l : List α) :
    l.countP (fun a => !(p a)) + l.countP p = l.length := by
  induction l with
  | nil => rfl
  | cons a rest ih =>
    rw [List.countP_cons, List.countP_cons, List.length_cons]
    by_cases h : p a = true
    · simp [h]
      omega
    · rw [Bool.not_eq_true] at h
      simp [h]
      omega

/-- **C2**: deleting an existing Lead removes, in one transaction, the
Lead row and exactly its N referencing attachment rows (N+1 rows in
total); the surviving documents are exactly the untouched non-referencing
originals (no lead reference is ever nulled) and none of them references
the deleted id; deleting a nonexistent id reports not-found and changes
nothing. -/
theorem c2_delete_cascades (st : Store) (id : Nat)
    (h : st.leads.countP (fun l => l.id == id) = 1) :
    (admin_delete_lead st id).2 = true ∧
    (admin_delete_lead st id).1.leads.length + (admin_delete_lead st id).1.documents.length
      + (st.documents.countP (fun doc => doc.lead_id == id) + 1)
      = st.leads.length + st.documents.length ∧
    (∀ doc ∈ (admin_delete_lead st id).1.documents, (doc.lead_id == id) = false) ∧
    (∀ doc : Document, doc ∈ (admin_delete_lead st id).1.documents ↔
      doc ∈ st.documents ∧ (doc.lead_id == id) = false) ∧
    (∀ l : Lead, l ∈ (admin_delete_lead st id).1.leads ↔
      l ∈ st.leads ∧ (l.id == id) = false) ∧
    (∀ id2 : Nat, st.leads.any (fun l => l.id == id2) = false →
      admin_delete_lead st id2 = (st, false)) := by
  have h0 : st.leads.countP (fun l => l.id == id) ≠ 0 := by omega
  have hex : ∃ x ∈ st.leads, (fun l => l.id == id) x = true := by
    by_contra hc
    push_neg at hc
    exact h0 (List.countP_eq_zero.mpr (fun a ha => by simpa using hc a ha))
  have hany : st.leads.any (fun l => l.id == id) = true := List.any_eq_true.mpr hex
  have hdel : admin_delete_lead st id =
      ({ st with
         leads := st.leads.filter (fun l => !(l.id == id)),
         documents := st.documents.filter (fun doc => !(doc.lead_id == id)) }, true) := by
    unfold admin_delete_lead
    rw [if_pos hany]
  refine ⟨by rw [hdel], ?_, ?_, ?_, ?_, ?_⟩
  · rw [hdel]
    have e1 : (st.leads.filter (fun l => !(l.id == id))).length
        + st.leads.countP (fun l => l.id == id) = st.leads.length := by
      rw [← List.countP_eq_length_filter]
      exact countP_bnot _ _
    have e2 : (st.documents.filter (fun doc => !(doc.lead_id == id))).length
        + st.documents.countP (fun doc => doc.lead_id == id) = st.documents.length := by
      rw [← List.countP_eq_length_filter]
      exact countP_bnot _ _
    simp only
    omega
  · rw [hdel]
    intro doc hdoc
    have := (List.mem_filter.mp hdoc).2
    simpa using this
  · rw [hdel]
    intro doc
    simp only [List.mem_filter, Bool.not_eq_true']
  · rw [hdel]
    intro l
    simp only [List.mem_filter, Bool.not_eq_true']
  · intro id2 h2
    unfold admin_delete_lead
    rw [if_neg]
    rw [h2]
    exact Bool.false_ne_true

/-- Witness for C2 at a concrete two-lead, three-attachment store. -/
theorem c2_delete_cascades_witness :
    (admin_delete_lead c2Store 1).2 = true ∧
    (admin_delete_lead c2Store 1).1.leads.length + (admin_delete_lead c2Store 1).1.documents.length
      + (c2Store.documents.countP (fun doc => doc.lead_id == 1) + 1)
      = c2Store.leads.length + c2Store.documents.length :=
  ⟨(c2_delete_cascades c2Store 1 (by decide)).1,
   (c2_delete_cascades c2Store 1 (by decide)).2.1⟩

/-- Unfolding of `admin_set_status` on an existing id. -/
theorem admin_set_status_pos (st : Store) (id : Nat) (ns : String)
    (h : st.leads.any (fun l => l.id == id) = true) :
    admin_set_status st id ns =
      ({ st with leads := st.leads.map
                    (fun l => if l.id == id then { l with status := ns } else l) },
       true) := by
  unfold admin_set_status
  rw [if_pos h]

/-- Unfolding of `admin_set_status` on a missing id. -/
theorem admin_set_status_neg (st : Store) (id : Nat) (ns : String)
    (h : st.leads.any (fun l => l.id == id) = false) :
    admin_set_status st id ns = (st, false) := by
  unfold admin_set_status
  rw [if_neg]
  rw [h]
  exact Bool.false_ne_true

/-- **C8**: `update-status` succeeds for every existing id whatever the
current status, setting exactly the requested value and touching no other
lead; running `change-status(id, "closed")` twice succeeds both times and
is idempotent; a nonexistent id reports not-found and leaves the store
unchanged. -/
theorem c8_update_status (st : Store) (id : Nat) (ns : String)
    (h : st.leads.any (fun l => l.id == id) = true) :
    (admin_set_status st id ns).2 = true ∧
    (∀ l ∈ (admin_set_status st id ns).1.leads, l.id = id → l.status = ns) ∧
    (∀ l ∈ st.leads, l.id ≠ id → l ∈ (admin_set_status st id ns).1.leads) ∧
    (admin_set_status (admin_set_status st id ("closed")).1 id ("closed")).2 = true ∧
    (admin_set_status (admin_set_status st id ("closed")).1 id ("closed")).1
      = (admin_set_status st id ("closed")).1 ∧
    (∀ id2 : Nat, st.leads.any (fun l => l.id == id2) = false →
      admin_set_status st id2 ns = (st, false)) := by
  have hany2 : (admin_set_status st id ("closed")).1.leads.any (fun l => l.id == id) = true := by
    rw [admin_set_status_pos st id ("closed") h]
    simp only [List.any_map]
    rw [List.any_eq_true] at h ⊢
    obtain ⟨a, ha, hpa⟩ := h
    refine ⟨a, ha, ?_⟩
    simp only [Function.comp_apply]
    by_cases hb : (a.id == id) = true
    · rw [if_pos hb]
      exact hpa
    · rw [if_neg hb]
      exact hpa
  have hmapmap : (admin_set_status st id ("closed")).1.leads.map
      (fun l => if l.id == id then { l with status := ("closed") } else l)
      = (admin_set_status st id ("closed")).1.leads := by
    rw [admin_set_status_pos st id ("closed") h]
    simp only [List.map_map]
    apply List.map_congr_left
    intro a _
    simp only [Function.comp_apply]
    by_cases hb : (a.id == id) = true
    · rw [if_pos hb, if_pos hb]
    · rw [if_neg hb, if_neg hb]
  refine ⟨by rw [admin_set_status_pos st id ns h], ?_, ?_, ?_, ?_, ?_⟩
  · rw [admin_set_status_pos st id ns h]
    intro l hl hid
    simp only [List.mem_map] at hl
    obtain ⟨a, ha, rfl⟩ := hl
    by_cases hb : (a.id == id) = true
    · rw [if_pos hb]
    · rw [if_neg hb] at hid ⊢
      exact absurd (beq_iff_eq.mpr hid) hb
  · rw [admin_set_status_pos st id ns h]
    intro l hl hne
    simp only [List.mem_map]
    refine ⟨l, hl, ?_⟩
    rw [if_neg (fun hb => hne (beq_iff_eq.mp hb))]
  · rw [admin_set_status_pos _ id ("closed") hany2]
  · rw [admin_set_status_pos _ id ("closed") hany2]
    show { (admin_set_status st id ("closed")).1 with
           leads := (admin_set_status st id ("closed")).1.leads.map
                      (fun l => if l.id == id then { l with status := ("closed") } else l) }
         = (admin_set_status st id ("closed")).1
    rw [hmapmap]
  · intro id2 h2
    exact admin_set_status_neg st id2 ns h2

/-- Witness for C8 at a concrete store and id. -/
theorem c8_update_status_witness :
    (admin_set_status c2Store 1 ("in_review")).2 = true ∧
    (admin_set_status (admin_set_status c2Store 1 ("closed")).1 1 ("closed")).1
      = (admin_set_status c2Store 1 ("closed")).1 :=
  ⟨(c8_update_status c2Store 1 ("in_review") (by decide)).1,
   (c8_update_status c2Store 1 ("in_review") (by decide)).2.2.2.2.1⟩

/-- **C4**: whatever the outcomes of the mirror (Sheets) and notify
(Telegram) calls, the finalize transaction's committed store and the
user-facing success reply are unchanged, the created lead is in the
store, each side effect is invoked exactly once (no synchronous retry),
and a failure shows up only in the log. -/
theorem c4_side_effects_isolated (st : Store) (d : Draft) (em : Option String) (now : Nat)
    (mfx nfx : FxResult) :
    (finalize_quick_effects st d em now mfx nfx).store
      = (finalize_quick_effects st d em now FxResult.ok FxResult.ok).store ∧
    (finalize_quick_effects st d em now mfx nfx).reply
      = (finalize_quick_effects st d em now FxResult.ok FxResult.ok).reply ∧
    mkQuickLead { d with email := em } st.nextLeadId now
      ∈ (finalize_quick_effects st d em now mfx nfx).store.leads ∧
    (finalize_quick_effects st d em now mfx nfx).mirrorCalls = 1 ∧
    (finalize_quick_effects st d em now mfx nfx).notifyCalls = 1 ∧
    ((finalize_quick_effects st d em now mfx nfx).logged = []
      ↔ (mfx = FxResult.ok ∧ nfx = FxResult.ok)) := by
  refine ⟨rfl, rfl, ?_, rfl, rfl, ?_⟩
  · show mkQuickLead { d with email := em } st.nextLeadId now
      ∈ st.leads ++ [mkQuickLead { d with email := em } st.nextLeadId now]
    exact List.mem_append.mpr (Or.inr (List.mem_singleton.mpr rfl))
  · cases mfx with
    | ok =>
      cases nfx with
      | ok => simp [finalize_quick_effects, append_lead_safe, notify_admins_log]
      | err m => simp [finalize_quick_effects, append_lead_safe, notify_admins_log]
    | err m =>
      cases nfx with
      | ok => simp [finalize_quick_effects, append_lead_safe, notify_admins_log]
      | err m2 => simp [finalize_quick_effects, append_lead_safe, notify_admins_log]

/-- The event trace of `_finalize_quick` is fixed up to the optional PDF
forwarding block. -/
theorem finalize_events_cases (st : Store) (d : Draft) (em : Option String) (now : Nat)
    (mfx nfx : FxResult) :
    (finalize_quick_effects st d em now mfx nfx).events
      = [FinEv.commitLead, FinEv.mirrorStart, FinEv.mirrorDone,
         FinEv.notifyStart, FinEv.notifyDone, FinEv.replySent, FinEv.stateCleared] ∨
    (finalize_quick_effects st d em now mfx nfx).events
      = [FinEv.commitLead, FinEv.mirrorStart, FinEv.mirrorDone,
         FinEv.notifyStart, FinEv.notifyDone, FinEv.pdfForward,
         FinEv.replySent, FinEv.stateCleared] := by
  have he : (finalize_quick_effects st d em now mfx nfx).events
      = [FinEv.commitLead, FinEv.mirrorStart, FinEv.mirrorDone,
         FinEv.notifyStart, FinEv.notifyDone] ++
        (if (({ d with email := em } : Draft).pdfs.getD []).length = 0 then
          ([] : List FinEv) else [FinEv.pdfForward]) ++
        [FinEv.replySent, FinEv.stateCleared] := rfl
  rw [he]
  by_cases hp : (({ d with email := em } : Draft).pdfs.getD []).length = 0
  · left
    rw [if_pos hp]
    rfl
  · right
    rw [if_neg hp]
    rfl

/-- C7 counterexample: in the concrete no-PDF finalize run, the success
reply event comes after — not before — both the mirror completion and the
notify completion, refuting "the reply is issued without waiting for the
notify or mirror calls to complete". -/
theorem c7_counterexample :
    ¬ (posOf FinEv.replySent (finalize_quick_effects {} {} none 0 FxResult.ok FxResult.ok).events
         < posOf FinEv.mirrorDone (finalize_quick_effects {} {} none 0 FxResult.ok FxResult.ok).events
       ∨ posOf FinEv.replySent (finalize_quick_effects {} {} none 0 FxResult.ok FxResult.ok).events
         < posOf FinEv.notifyDone (finalize_quick_effects {} {} none 0 FxResult.ok FxResult.ok).events) := by
  decide

/-- **C7 (amended)**: the notify and mirror side effects are dispatched
after the commit and are awaited — the mirror runs on a worker thread via
`asyncio.to_thread` but the finalize coroutine awaits it — so the success
reply is issued only after both have completed (their failures being
swallowed, they still cannot block the reply indefinitely or fail it). -/
theorem c7_sideeffects_awaited (st : Store) (d : Draft) (em : Option String) (now : Nat)
    (mfx nfx : FxResult) :
    posOf FinEv.commitLead (finalize_quick_effects st d em now mfx nfx).events
      < posOf FinEv.mirrorStart (finalize_quick_effects st d em now mfx nfx).events ∧
    posOf FinEv.mirrorStart (finalize_quick_effects st d em now mfx nfx).events
      < posOf FinEv.mirrorDone (finalize_quick_effects st d em now mfx nfx).events ∧
    posOf FinEv.mirrorDone (finalize_quick_effects st d em now mfx nfx).events
      < posOf FinEv.notifyStart (finalize_quick_effects st d em now mfx nfx).events ∧
    posOf FinEv.notifyStart (finalize_quick_effects st d em now mfx nfx).events
      < posOf FinEv.notifyDone (finalize_quick_effects st d em now mfx nfx).events ∧
    posOf FinEv.mirrorDone (finalize_quick_effects st d em now mfx nfx).events
      < posOf FinEv.replySent (finalize_quick_effects st d em now mfx nfx).events ∧
    posOf FinEv.notifyDone (finalize_quick_effects st d em now mfx nfx).events
      < posOf FinEv.replySent (finalize_quick_effects st d em now mfx nfx).events := by
  rcases finalize_events_cases st d em now mfx nfx with he | he <;> rw [he] <;> decide

/-- Everything a page returns satisfies the assembled WHERE clause. -/
theorem fetch_page_mem (db : List Lead) (scope : String) (page : Nat) (f : FilterSet)
    (now : Int) (l : Lead) (h : l ∈ fetch_page db scope page f now) :
    lead_matches scope f now l = true := by
  unfold fetch_page at h
  have h1 : l ∈ (db.filter (lead_matches scope f now)).insertionSort createdDesc :=
    List.Sublist.mem h ((List.take_sublist _ _).trans (List.drop_sublist _ _))
  have h2 : l ∈ db.filter (lead_matches scope f now) :=
    (List.perm_insertionSort createdDesc _).mem_iff.mp h1
  exact (List.mem_filter.mp h2).2

/-- The unfolded semantics of the WHERE clause in the `all` scope. -/
theorem lead_matches_all_iff (f : FilterSet) (now : Int) (l : Lead) :
    lead_matches ("all") f now l = true ↔
      ((f.status = ("any") ∨ l.status = f.status) ∧
       (f.source = ("any") ∨ l.source = f.source) ∧
       (∀ d, period_to_days f.period = some d →
         now - (d : Int) * 86400 ≤ (l.created_at : Int))) := by
  unfold lead_matches
  rw [if_neg (by decide : ¬("all" : String) = ("new"))]
  simp only [Bool.and_eq_true]
  constructor
  · rintro ⟨⟨hs, hsrc⟩, hper⟩
    refine ⟨?_, ?_, ?_⟩
    · by_cases h : f.status = ("any")
      · exact Or.inl h
      · rw [if_pos h] at hs
        exact Or.inr (beq_iff_eq.mp hs)
    · by_cases h : f.source = ("any")
      · exact Or.inl h
      · rw [if_pos h] at hsrc
        exact Or.inr (beq_iff_eq.mp hsrc)
    · intro d hd
      rw [hd] at hper
      exact of_decide_eq_true hper
  · rintro ⟨hs, hsrc, hper⟩
    refine ⟨⟨?_, ?_⟩, ?_⟩
    · by_cases h : f.status = ("any")
      · rw [if_neg (fun hne => hne h)]
      · rw [if_pos h]
        rcases hs with h1 | h1
        · exact absurd h1 h
        · exact beq_iff_eq.mpr h1
    · by_cases h : f.source = ("any")
      · rw [if_neg (fun hne => hne h)]
      · rw [if_pos h]
        rcases hsrc with h1 | h1
        · exact absurd h1 h
        · exact beq_iff_eq.mpr h1
    · cases hp : period_to_days f.period with
      | none => rfl
      | some d => exact decide_eq_true (hper d hp)

/-- The unfolded semantics of the WHERE clause in the `new` scope: the
status is forced to `new`, the source and period filters still apply. -/
theorem lead_matches_new_iff (f : FilterSet) (now : Int) (l : Lead) :
    lead_matches ("new") f now l = true ↔
      (l.status = ("new") ∧
       (f.source = ("any") ∨ l.source = f.source) ∧
       (∀ d, period_to_days f.period = some d →
         now - (d : Int) * 86400 ≤ (l.created_at : Int))) := by
  unfold lead_matches
  rw [if_pos rfl]
  simp only [Bool.and_eq_true]
  constructor
  · rintro ⟨⟨hs, hsrc⟩, hper⟩
    refine ⟨beq_iff_eq.mp hs, ?_, ?_⟩
    · by_cases h : f.source = ("any")
      · exact Or.inl h
      · rw [if_pos h] at hsrc
        exact Or.inr (beq_iff_eq.mp hsrc)
    · intro d hd
      rw [hd] at hper
      exact of_decide_eq_true hper
  · rintro ⟨hs, hsrc, hper⟩
    refine ⟨⟨beq_iff_eq.mpr hs, ?_⟩, ?_⟩
    · by_cases h : f.source = ("any")
      · rw [if_neg (fun hne => hne h)]
      · rw [if_pos h]
        rcases hsrc with h1 | h1
        · exact absurd h1 h
        · exact beq_iff_eq.mpr h1
    · cases hp : period_to_days f.period with
      | none => rfl
      | some d => exact decide_eq_true (hper d hp)

/-- **C5**: a listing page holds at most 10 leads, all satisfying the
scope's WHERE clause, ordered by `created_at` descending; the `new` scope
forces the status predicate to `new` regardless of the filter's status
field; the `all` scope applies status/source unless `any` and the window
cutoff unless all-time; the next-page button is offered exactly for a
full page of 10 — so with 15 new leads, page 0 of the new scope returns
the 10 most recent ones and offers the next page. -/
theorem c5_list_page :
    (∀ (db : List Lead) (scope : String) (page : Nat) (f : FilterSet) (now : Int),
      (fetch_page db scope page f now).length ≤ 10) ∧
    (∀ (db : List Lead) (scope : String) (page : Nat) (f : FilterSet) (now : Int),
      ∀ l ∈ fetch_page db scope page f now, lead_matches scope f now l = true) ∧
    (∀ (db : List Lead) (scope : String) (page : Nat) (f : FilterSet) (now : Int),
      List.Pairwise createdDesc (fetch_page db scope page f now)) ∧
    (∀ (db : List Lead) (page : Nat) (st1 st2 src per : String) (now : Int),
      fetch_page db ("new") page { status := st1, source := src, period := per } now
        = fetch_page db ("new") page { status := st2, source := src, period := per } now) ∧
    (∀ (f : FilterSet) (now : Int) (l : Lead),
      lead_matches ("all") f now l = true ↔
        ((f.status = ("any") ∨ l.status = f.status) ∧
         (f.source = ("any") ∨ l.source = f.source) ∧
         (∀ d, period_to_days f.period = some d →
           now - (d : Int) * 86400 ≤ (l.created_at : Int)))) ∧
    (∀ items : List Lead, kb_list_has_next items = true ↔ items.length = 10) ∧
    fetch_page db15 ("new") 0 {} now15
      = (List.range 10).map (fun i => simpleLead (15 - i) (15 - i)) ∧
    kb_list_has_next (fetch_page db15 ("new") 0 {} now15) = true := by
  refine ⟨?_, ?_, ?_, ?_, lead_matches_all_iff, ?_, by decide, by decide⟩
  · intro db scope page f now
    exact List.length_take_le 10 _
  · intro db scope page f now l h
    exact fetch_page_mem db scope page f now l h
  · intro db scope page f now
    have hs : List.Pairwise createdDesc
        ((db.filter (lead_matches scope f now)).insertionSort createdDesc) :=
      List.sorted_insertionSort createdDesc _
    exact List.Pairwise.sublist ((List.take_sublist _ _).trans (List.drop_sublist _ _)) hs
  · intro db page st1 st2 src per now
    rfl
  · intro items
    unfold kb_list_has_next
    exact beq_iff_eq

/-- Witness for C5: the most recent lead of the 15-lead scenario is on
page 0 and satisfies the new-scope WHERE clause. -/
theorem c5_list_page_witness :
    lead_matches ("new") {} now15 (simpleLead 15 15) = true :=
  c5_list_page.2.1 db15 ("new") 0 {} now15 (simpleLead 15 15) (by decide)

/-- **C10**: the `new` listing scope overrides only the status: the
source filter and the time-window filter still constrain the page, so a
new lead with the wrong source or older than the window is omitted —
concretely, with a recent `booking` lead and an out-of-window `quick`
lead, the new-scope page under (source=quick, period=7d) is empty. -/
theorem c10_newonly_respects_filters :
    (∀ (db : List Lead) (page : Nat) (f : FilterSet) (now : Int) (l : Lead),
      l ∈ fetch_page db ("new") page f now →
        l.status = ("new") ∧
        (f.source ≠ ("any") → l.source = f.source) ∧
        (∀ d, period_to_days f.period = some d →
          now - (d : Int) * 86400 ≤ (l.created_at : Int))) ∧
    fetch_page dbC10 ("new") 0 fQuick7d nowC10 = [] ∧
    dbC10.all (fun l => l.status == ("new")) = true := by
  refine ⟨?_, by decide, by decide⟩
  intro db page f now l h
  have hm := fetch_page_mem db ("new") page f now l h
  rw [lead_matches_new_iff] at hm
  obtain ⟨h1, h2, h3⟩ := hm
  refine ⟨h1, ?_, h3⟩
  intro hne
  rcases h2 with h2 | h2
  · exact absurd h2 hne
  · exact h2

/-- Witness for C10 at the concrete 15-lead scenario. -/
theorem c10_newonly_respects_filters_witness :
    (simpleLead 15 15).status = ("new") :=
  (c10_newonly_respects_filters.1 db15 0 {} now15 (simpleLead 15 15) (by decide)).1

/-- Characterization of `\d[\d\-\s]{6,}`. -/
theorem phoneCore_iff (cs : List Char) :
    phoneCore cs = true ↔
      ∃ d rest, cs = d :: rest ∧ d.isDigit = true ∧ 6 ≤ rest.length ∧
        ∀ c ∈ rest, phoneBody c = true := by
  cases cs with
  | nil => simp [phoneCore]
  | cons d rest =>
    simp only [phoneCore, Bool.and_eq_true, decide_eq_true_eq, List.all_eq_true,
      List.cons.injEq]
    constructor
    · rintro ⟨⟨h1, h2⟩, h3⟩
      exact ⟨d, rest, ⟨rfl, rfl⟩, h1, h2, h3⟩
    · rintro ⟨d2, rest2, ⟨hd, hr⟩, h1, h2, h3⟩
      subst hd
      subst hr
      exact ⟨⟨h1, h2⟩, h3⟩

/-- Characterization of the phone regex including the optional `+`. -/
theorem rxPhoneMatch_iff (cs : List Char) :
    rxPhoneMatch cs = true ↔
      ∃ d rest, (cs = d :: rest ∨ cs = ('+') :: d :: rest) ∧ d.isDigit = true ∧
        6 ≤ rest.length ∧ ∀ c ∈ rest, phoneBody c = true := by
  unfold rxPhoneMatch
  by_cases h : cs.head? = some ('+')
  · rw [if_pos h]
    obtain ⟨tl, rfl⟩ : ∃ tl, cs = ('+') :: tl := by
      cases cs with
      | nil => cases h
      | cons c rest =>
        refine ⟨rest, ?_⟩
        have : c = ('+') := by injection h
        rw [this]
    rw [phoneCore_iff]
    constructor
    · rintro ⟨d, rest, hcs, h1, h2, h3⟩
      refine ⟨d, rest, Or.inr ?_, h1, h2, h3⟩
      have htl : tl = d :: rest := hcs
      rw [htl]
    · rintro ⟨d, rest, hor, h1, h2, h3⟩
      rcases hor with h4 | h4
      · have hd : d = ('+') := by
          have := h4.symm
          injection this
        rw [hd] at h1
        cases h1
      · have htl : tl = d :: rest := by injection h4
        exact ⟨d, rest, htl, h1, h2, h3⟩
  · rw [if_neg h]
    rw [phoneCore_iff]
    constructor
    · rintro ⟨d, rest, hcs, h1, h2, h3⟩
      exact ⟨d, rest, Or.inl hcs, h1, h2, h3⟩
    · rintro ⟨d, rest, hor, h1, h2, h3⟩
      rcases hor with h4 | h4
      · exact ⟨d, rest, h4, h1, h2, h3⟩
      · rw [h4] at h
        simp at h

/-- Appending the tolerated trailing newline preserves a phone match
(`\n` lies in the `[\d\-\s]` class). -/
theorem rxPhoneMatch_concat_newline (l : List Char) (h : rxPhoneMatch l = true) :
    rxPhoneMatch (l ++ [('\n')]) = true := by
  rw [rxPhoneMatch_iff] at h ⊢
  obtain ⟨d, rest, hor, h1, h2, h3⟩ := h
  refine ⟨d, rest ++ [('\n')], ?_, h1, ?_, ?_⟩
  · rcases hor with h4 | h4
    · rw [h4]
      exact Or.inl rfl
    · rw [h4]
      exact Or.inr rfl
  · rw [List.length_append]
    omega
  · intro c hc
    rcases List.mem_append.mp hc with h4 | h4
    · exact h3 c h4
    · rw [List.mem_singleton] at h4
      rw [h4]
      rfl

/-- For the phone regex the `$`-newline alternative is subsumed. -/
theorem dollarOpt_phone (cs : List Char) :
    dollarOpt rxPhoneMatch cs = rxPhoneMatch cs := by
  unfold dollarOpt
  cases hm : rxPhoneMatch cs with
  | true => rfl
  | false =>
    rw [Bool.false_or]
    cases hg : (cs.getLast? == some ('\n')) with
    | false => rfl
    | true =>
      rw [Bool.true_and]
      cases hd : rxPhoneMatch cs.dropLast with
      | false => rfl
      | true =>
        exfalso
        have hgl : cs.getLast? = some ('\n') := beq_iff_eq.mp hg
        have hne : cs ≠ [] := by
          intro he
          rw [he] at hgl
          cases hgl
        have hrw : cs.dropLast ++ [('\n')] = cs := by
          have h2 := List.getLast?_eq_getLast cs hne
          rw [h2] at hgl
          have h3 : cs.getLast hne = ('\n') := by injection hgl
          rw [← h3]
          exact List.dropLast_append_getLast hne
        have := rxPhoneMatch_concat_newline cs.dropLast hd
        rw [hrw] at this
        rw [this] at hm
        cases hm

/-- Characterization of `@[A-Za-z0-9_]{5,}`. -/
theorem tgCore_iff (cs : List Char) :
    tgCore cs = true ↔
      ∃ rest, cs = ('@') :: rest ∧ 5 ≤ rest.length ∧ ∀ c ∈ rest, isWordChar c = true := by
  unfold tgCore
  by_cases h : cs.head? = some ('@')
  · rw [if_pos h]
    obtain ⟨tl, rfl⟩ : ∃ tl, cs = ('@') :: tl := by
      cases cs with
      | nil => cases h
      | cons c rest =>
        refine ⟨rest, ?_⟩
        have : c = ('@') := by injection h
        rw [this]
    simp only [List.tail_cons, Bool.and_eq_true, decide_eq_true_eq, List.all_eq_true,
      List.cons.injEq]
    constructor
    · rintro ⟨h1, h2⟩
      exact ⟨tl, ⟨trivial, rfl⟩, h1, h2⟩
    · rintro ⟨rest, ⟨_, hr⟩, h1, h2⟩
      subst hr
      exact ⟨h1, h2⟩
  · rw [if_neg h]
    constructor
    · intro hf
      cases hf
    · rintro ⟨rest, hcs, _, _⟩
      rw [hcs] at h
      simp at h

/-- Characterization of the handle regex with the `$`-newline rule. -/
theorem dollarOpt_tg_iff (cs : List Char) :
    dollarOpt tgCore cs = true ↔
      ∃ rest tail, cs = ('@') :: rest ++ tail ∧ (tail = [] ∨ tail = [('\n')]) ∧
        5 ≤ rest.length ∧ ∀ c ∈ rest, isWordChar c = true := by
  unfold dollarOpt
  rw [Bool.or_eq_true, Bool.and_eq_true, tgCore_iff, tgCore_iff, beq_iff_eq]
  constructor
  · rintro (⟨rest, hcs, h1, h2⟩ | ⟨hgl, rest, hdl, h1, h2⟩)
    · refine ⟨rest, [], ?_, Or.inl rfl, h1, h2⟩
      rw [List.append_nil]
      exact hcs
    · have hne : cs ≠ [] := by
        intro he
        rw [he] at hgl
        cases hgl
      have hrw : cs.dropLast ++ [('\n')] = cs := by
        have hg2 := List.getLast?_eq_getLast cs hne
        rw [hg2] at hgl
        have h3 : cs.getLast hne = ('\n') := by injection hgl
        rw [← h3]
        exact List.dropLast_append_getLast hne
      refine ⟨rest, [('\n')], ?_, Or.inr rfl, h1, h2⟩
      rw [← hrw, hdl]
  · rintro ⟨rest, tail, hcs, htail, h1, h2⟩
    rcases htail with ht | ht
    · subst ht
      rw [List.append_nil] at hcs
      exact Or.inl ⟨rest, hcs, h1, h2⟩
    · subst ht
      right
      have hcs2 : cs = (('@') :: rest) ++ [('\n')] := hcs
      constructor
      · rw [hcs2]
        exact List.getLast?_concat _
      · refine ⟨rest, ?_, h1, h2⟩
        rw [hcs2]
        rw [List.dropLast_concat]

/-- C3 counterexample: `"1-2-3-4"` contains only four digits, so it is
neither phone-like nor handle-like in the spec's sense, yet
`valid_contact` accepts it (`RX_PHONE` only demands one digit followed by
six characters of `[\d\-\s]`). -/
theorem c3_counterexample :
    valid_contact ("1-2-3-4") = true ∧
    spec_phone_like ("1-2-3-4") = false ∧
    spec_handle_like ("1-2-3-4") = false := by
  decide

/-- **C3 (amended)**: `valid_contact` accepts exactly the strings that
consist of an optional leading `+`, one digit and then at least six
characters drawn from digits, hyphens and whitespace, or of `@` followed
by at least five word characters (with one trailing newline tolerated);
`"12345"` is rejected and the flow stays on the contact step with a
re-prompt, while `"@abcde"` is accepted and advances to the email step,
storing the contact. -/
theorem c3_contact_validator_amended :
    (∀ s : String, valid_contact s = true ↔ (PhoneLikeA s ∨ HandleLikeA s)) ∧
    valid_contact ("12345") = false ∧
    (stepMsg wContact ("12345") 5).1 = wContact ∧
    (stepMsg wContact ("12345") 5).2 = Out.badContact ∧
    valid_contact ("@abcde") = true ∧
    (stepMsg wContact ("@abcde") 5).1.sess.fstate = FState.qEmail ∧
    (stepMsg wContact ("@abcde") 5).1.sess.draft.contact = some ("@abcde") ∧
    (stepMsg wContact ("@abcde") 5).2 = Out.askEmail := by
  refine ⟨?_, by decide, by decide, by decide, by decide, by decide, by decide, by decide⟩
  intro s
  unfold valid_contact
  rw [Bool.or_eq_true, dollarOpt_phone, rxPhoneMatch_iff, dollarOpt_tg_iff]
  unfold PhoneLikeA HandleLikeA
  exact Iff.rfl

/-- `route_main_button` matches nothing when the normalized text is none
of the five main-menu titles. -/
theorem route_main_button_none (t : String)
    (h1 : norm t ≠ ("швидке питання")) (h2 : norm t ≠ ("записатися на консультацію"))
    (h3 : norm t ≠ ("статті та гіди")) (h4 : norm t ≠ ("про юриста / контакти"))
    (h5 : norm t ≠ ("меню")) : route_main_button t = none := by
  unfold route_main_button
  rw [if_neg h1, if_neg h2, if_neg h3, if_neg h4, if_neg h5]

/-- At the quick email step, a text that is neither a global button nor
the back/skip button reaches the `quick_email` handler body. -/
theorem stepMsg_qEmail_text (w : World) (t : String) (now : Nat)
    (hsf : w.sess.fstate = FState.qEmail)
    (h1 : norm t ≠ ("статті та гіди")) (h2 : norm t ≠ ("розпочати"))
    (h3 : norm t ≠ ("меню")) (h4 : norm t ≠ ("про юриста / контакти"))
    (h5 : norm t ≠ ("швидке питання")) (h6 : norm t ≠ ("записатися на консультацію"))
    (hback : t ≠ ("⬅️ Назад")) (hskip : t ≠ ("⏭️ Пропустити")) :
    stepMsg w t now = applyMsgAct w now (emailAct t MsgAct.finQuick) := by
  have hb : w.sess.fstate ≠ FState.qBrief := by rw [hsf]; intro hx; cases hx
  have hn : w.sess.fstate ≠ FState.qName := by rw [hsf]; intro hx; cases hx
  have hc : w.sess.fstate ≠ FState.qContact := by rw [hsf]; intro hx; cases hx
  simp only [stepMsg, stepMsgAct]
  rw [if_neg h1, if_neg h2, if_neg h3, if_neg h4, if_neg h5,
      if_neg (fun hx => hb hx.1), if_neg (fun hx => hb hx.1), if_neg hb,
      if_neg (fun hx => hn hx.1), if_neg hn,
      if_neg (fun hx => hc hx.1), if_neg (fun hx => hc hx.1), if_neg hc,
      if_neg (fun hx => hback hx.2), if_neg (fun hx => hskip hx.2), if_pos hsf,
      route_main_button_none t h5 h6 h1 h4 h3]

/-- The skip button at the quick email step finalizes with no email. -/
theorem stepMsg_qEmail_skipButton (w : World) (now : Nat)
    (hsf : w.sess.fstate = FState.qEmail) :
    stepMsg w ("⏭️ Пропустити") now = finalizeQuickWorld w none now := by
  have hb : w.sess.fstate ≠ FState.qBrief := by rw [hsf]; intro hx; cases hx
  have hn : w.sess.fstate ≠ FState.qName := by rw [hsf]; intro hx; cases hx
  have hc : w.sess.fstate ≠ FState.qContact := by rw [hsf]; intro hx; cases hx
  simp only [stepMsg, stepMsgAct]
  rw [if_neg (by decide : ¬norm ("⏭️ Пропустити") = ("статті та гіди")),
      if_neg (by decide : ¬norm ("⏭️ Пропустити") = ("розпочати")),
      if_neg (by decide : ¬norm ("⏭️ Пропустити") = ("меню")),
      if_neg (by decide : ¬norm ("⏭️ Пропустити") = ("про юриста / контакти")),
      if_neg (by decide : ¬norm ("⏭️ Пропустити") = ("швидке питання")),
      if_neg (fun hx => hb hx.1), if_neg (fun hx => hb hx.1), if_neg hb,
      if_neg (fun hx => hn hx.1), if_neg hn,
      if_neg (fun hx => hc hx.1), if_neg (fun hx => hc hx.1), if_neg hc,
      if_neg (fun hx => (by decide : ("⏭️ Пропустити") ≠ ("⬅️ Назад")) hx.2),
      if_pos ⟨hsf, trivial⟩]
  rfl

/-- C9 counterexample: the input `"-"` does not match the email shape,
yet instead of a re-prompt it finalizes the Lead (with `email = NULL`) —
it acts as an additional skip token. -/
theorem c9_counterexample :
    valid_email ("-") = false ∧
    (stepMsg wEmail ("-") 5).2 = Out.finalizedQuick ∧
    (stepMsg wEmail ("-") 5).1.store.leads.map (fun l => l.email) = [none] ∧
    (stepMsg wEmail ("-") 5).1.sess.fstate = FState.idle := by
  decide

/-- **C9 (amended)**: at the email step (for text that is not a global
menu button and not the back button), the trimmed input is stored on the
Lead iff it matches the email shape; the skip button — and likewise the
dash input `"-"` (and a whitespace-only input, which stores an empty
string) — finalizes instead of failing validation; any other non-matching
input re-prompts and stays on the email step. -/
theorem c9_email_step_amended :
    (∀ (w : World) (t : String) (now : Nat),
      w.sess.fstate = FState.qEmail →
      norm t ≠ ("статті та гіди") → norm t ≠ ("розпочати") → norm t ≠ ("меню") →
      norm t ≠ ("про юриста / контакти") → norm t ≠ ("швидке питання") →
      norm t ≠ ("записатися на консультацію") →
      t ≠ ("⬅️ Назад") → t ≠ ("⏭️ Пропустити") →
      ((pyStrip t = ("-") → stepMsg w t now = finalizeQuickWorld w none now) ∧
       (pyStrip t = ("") → stepMsg w t now = finalizeQuickWorld w (some ("")) now) ∧
       (pyStrip t ≠ ("-") → pyStrip t ≠ ("") → valid_email (pyStrip t) = false →
         stepMsg w t now = (w, Out.badEmail)) ∧
       (pyStrip t ≠ ("-") → valid_email (pyStrip t) = true →
         stepMsg w t now = finalizeQuickWorld w (some (pyStrip t)) now))) ∧
    (∀ (w : World) (now : Nat), w.sess.fstate = FState.qEmail →
      stepMsg w ("⏭️ Пропустити") now = finalizeQuickWorld w none now) := by
  refine ⟨?_, stepMsg_qEmail_skipButton⟩
  intro w t now hsf h1 h2 h3 h4 h5 h6 hback hskip
  have hstep := stepMsg_qEmail_text w t now hsf h1 h2 h3 h4 h5 h6 hback hskip
  refine ⟨?_, ?_, ?_, ?_⟩
  · intro he
    rw [hstep]
    simp only [emailAct]
    rw [if_neg (fun hx => hx.1 he), if_pos (Or.inl he)]
    rfl
  · intro he
    rw [hstep]
    simp only [emailAct]
    rw [if_neg (fun hx => hx.2.1 he),
        if_neg (fun hor => by
          rcases hor with hx | hx
          · rw [he] at hx
            exact absurd hx (by decide)
          · rw [he] at hx
            exact absurd hx (by decide))]
    rw [he]
    rfl
  · intro hne hne2 hval
    rw [hstep]
    simp only [emailAct]
    rw [if_pos ⟨hne, hne2, hval⟩]
    rfl
  · intro hne hval
    have hne2 : pyStrip t ≠ ("") := by
      intro he0
      rw [he0] at hval
      exact absurd hval (by decide)
    have hnem : pyStrip t ≠ ("—") := by
      intro he0
      rw [he0] at hval
      exact absurd hval (by decide)
    rw [hstep]
    simp only [emailAct]
    rw [if_neg (fun hx => by rw [hval] at hx; exact absurd hx.2.2 (by decide)),
        if_neg (fun hor => by
          rcases hor with hx | hx
          · exact hne hx
          · exact hnem hx)]
    rfl

/-- Witness for C9 at the concrete email-step world and input `"-"`. -/
theorem c9_email_step_amended_witness :
    stepMsg wEmail ("-") 5 = finalizeQuickWorld wEmail none 5 :=
  (c9_email_step_amended.1 wEmail ("-") 5 (by decide) (by decide) (by decide) (by decide)
    (by decide) (by decide) (by decide) (by decide) (by decide)).1 (by decide)

/-- `route_main_button` on a booking-entry text. -/
theorem route_main_button_booking (t : String)
    (hn : norm t = ("записатися на консультацію")) :
    route_main_button t = some ({ fstate := FState.bFmt, draft := {} }, Out.askFormat) := by
  unfold route_main_button
  rw [hn]
  rw [if_neg (by decide), if_pos rfl]

/-- C6 counterexample: after collecting `duration = "30"` in the Booking
flow, restarting with the quick flow and completing it (consult offer
skipped) finalizes a `quick` Lead that still carries the Booking draft's
`duration` — the prior Draft was reused, not replaced. -/
theorem c6_counterexample :
    (runEvents initWorld (c6Events.take 3)).sess.fstate = FState.bName ∧
    (runEvents initWorld (c6Events.take 3)).sess.draft.duration = some ("30") ∧
    (runEvents initWorld c6Events).store.leads = [c6Lead] ∧
    c6Lead.source = ("quick") ∧
    c6Lead.duration = some ("30") := by
  decide

/-- **C6 (amended)**: starting a flow does not clear the FSM data — the
flow entry handlers only set the step, so the prior Draft's fields are
reused; the quick category selection resets only `category` and the PDF
list; fields whose steps are walked again are overwritten, but a field
the restarted flow does not collect (such as `duration` when the consult
offer is skipped) leaks from the prior Draft into the new Lead.  The
Draft *is* cleared when the flow switch goes through a step handler's
main-button guard (e.g. switching to Booking from the quick name step). -/
theorem c6_draft_replace_amended :
    (∀ (w : World) (t : String) (now : Nat), norm t = ("швидке питання") →
      stepMsg w t now
        = ({ w with sess := { w.sess with fstate := FState.qCategory } }, Out.askCategory)) ∧
    (∀ (s : Sess) (data : String), s.fstate = FState.qCategory →
      data ≠ ("common:back") → dataStartsWith data ("quick:cat:") = true →
      stepCbSess s data
        = ({ fstate := FState.qBrief,
             draft := { s.draft with category := some (lastSeg data), pdfs := some [] } },
           Out.askBrief)) ∧
    (∀ (w : World) (t : String) (now : Nat), w.sess.fstate = FState.qName →
      norm t = ("записатися на консультацію") →
      stepMsg w t now
        = ({ w with sess := { fstate := FState.bFmt, draft := {} } }, Out.askFormat)) ∧
    ((runEvents initWorld (c6Events.take 10)).sess.draft.duration = some ("30") ∧
     (runEvents initWorld c6Events).store.leads.map (fun l => l.duration) = [some ("30")]) := by
  refine ⟨?_, ?_, ?_, by decide⟩
  · intro w t now hn
    simp only [stepMsg, stepMsgAct]
    rw [hn]
    rw [if_neg (by decide), if_neg (by decide), if_neg (by decide), if_neg (by decide),
        if_pos rfl]
    rfl
  · intro s data hsf hdata hstart
    unfold stepCbSess
    rw [if_neg (fun hx => hdata hx.2), if_pos ⟨hsf, hstart⟩]
  · intro w t now hsf hn
    have hb : w.sess.fstate ≠ FState.qBrief := by rw [hsf]; intro hx; cases hx
    have hback : t ≠ ("⬅️ Назад") := by
      intro ht
      rw [ht] at hn
      exact absurd hn (by decide)
    simp only [stepMsg, stepMsgAct]
    rw [hn]
    rw [if_neg (by decide), if_neg (by decide), if_neg (by decide), if_neg (by decide),
        if_neg (by decide),
        if_neg (fun hx => hb hx.1), if_neg (fun hx => hb hx.1), if_neg hb,
        if_neg (fun hx => hback hx.2), if_pos hsf,
        route_main_button_booking t hn]
    rfl

/-- Witness for C6: the quick entry over a non-empty session keeps the
draft. -/
theorem c6_draft_replace_amended_witness :
    stepMsg (runEvents initWorld (c6Events.take 3)) ("Швидке питання") 4
      = ({ runEvents initWorld (c6Events.take 3) with
           sess := { (runEvents initWorld (c6Events.take 3)).sess with
                     fstate := FState.qCategory } },
         Out.askCategory) :=
  c6_draft_replace_amended.1 (runEvents initWorld (c6Events.take 3)) ("Швидке питання") 4
    (by decide)
